import Mathlib

/-!
Verification of the TG3 coverage-checker pipeline (`pages/api/coverage.js`).

The JavaScript source is shallowly embedded: each JS function becomes a Lean
definition of the same name, upstream HTTP services become explicit response
parameters (indexed by the order in which the sequential code issues the
calls), and the side effects that matter to the specification (which network
calls were issued) are recorded in explicit observer fields of the result.
Geographic half-widths are exact rationals (`0.008` is `8/1000 : ℚ`).
-/

/-- JS truthiness of an optional string (`undefined`/`""` are falsy). -/
def jsTruthy : Option String → Bool
  | some s => !s.isEmpty
  | none => false

/-- A whitespace test covering the common JS `trim` characters. -/
def isWsChar (c : Char) : Bool :=
  c = ' ' || c = '\t' || c = '\n' || c = '\r'

/-- The JS `String.prototype.trim()` (structural, over the common whitespace
characters). -/
def jsTrim (s : String) : String :=
  String.mk (((s.data.dropWhile isWsChar).reverse.dropWhile isWsChar).reverse)

/-- The source's `String(x).padStart(3, "0")`. -/
def padStart3 (s : String) : String :=
  if s.length < 3 then String.mk (List.replicate (3 - s.length) '0') ++ s else s

/-- The source's ZIP regex `^\d{5}(-\d{4})?$` as a decidable check. -/
def zipValid (s : String) : Bool :=
  let l := s.data
  ((l.length == 5) && l.all (fun c => c.isDigit)) ||
  ((l.length == 10) && (l.take 5).all (fun c => c.isDigit) &&
    (match l.drop 5 with
     | '-' :: rest => rest.all (fun c => c.isDigit)
     | _ => false))

/-- Deduplication as `Array.from(new Set(xs))`: keeps first occurrences in
insertion order. -/
def jsSetList (l : List String) : List String :=
  l.foldl (fun acc x => if x ∈ acc then acc else acc ++ [x]) []

/-- Insert into a sorted list (for modelling `Array.prototype.sort()`). -/
def insertStr (x : String) : List String → List String
  | [] => [x]
  | y :: ys => if x ≤ y then x :: y :: ys else y :: insertStr x ys

/-- Sorting as `Array.prototype.sort()` on strings (lexicographic). -/
def sortStr (l : List String) : List String :=
  l.foldr insertStr []

/-- Request query parameters (`req.query`), each possibly absent. -/
structure Query where
  zip : Option String
  lat : Option String
  lon : Option String
deriving DecidableEq

/-- A resolved geographic point (the source's `{lat, lon, place}`). -/
structure Geo where
  lat : ℚ
  lon : ℚ
  place : String
deriving DecidableEq

/-- A raw cell object of an OpenCelliD payload; any field may be missing.
`mcc`/`mnc` are numbers, `cid`/`cellid` are kept as their string renderings. -/
structure RawCell where
  mcc : Option ℕ
  mnc : Option ℕ
  cid : Option String
  cellid : Option String
deriving DecidableEq

/-- A cell record after `fetchOpenCellIdBox` filtered it (has `mcc` and `mnc`)
and tagged it with the requested radio technology (`{...c, radio}`). -/
structure CellT where
  mcc : ℕ
  mnc : ℕ
  cid : Option String
  cellid : Option String
  radioTech : String
deriving DecidableEq

/-- One OpenCelliD response body after `JSON.parse`, by behavioural class:
unparseable text, an error payload containing "bbox too big", a `{cells: [...]}`
object, a plain array, or any other JSON value (no usable `cells`). -/
inductive OcidResp
  | malformed
  | tooBig
  | cellsField (items : List (Option RawCell))
  | arrayBody (items : List (Option RawCell))
  | otherJson
deriving DecidableEq

/-- The source's `.filter(c => c && c.mcc !== undefined && c.mnc !== undefined)
.map(c => ({...c, radio}))`. -/
def tagCells (radioTech : String) (items : List (Option RawCell)) : List CellT :=
  items.filterMap (fun o =>
    match o with
    | some rc =>
      match rc.mcc, rc.mnc with
      | some a, some b => some ⟨a, b, rc.cid, rc.cellid, radioTech⟩
      | _, _ => none
    | none => none)

/-- The adaptive retry loop of `fetchOpenCellIdBox`: `fuel` attempts remain,
`i` is the attempt index into the upstream responses, `d` the current
half-width. Returns the cells together with the trace of half-widths used,
one per issued request. -/
def fetchBoxGo (up : ℕ → OcidResp) (radioTech : String) (minD : ℚ) :
    ℕ → ℕ → ℚ → List CellT × List ℚ
  | 0, _, _ => ([], [])
  | fuel + 1, i, d =>
    match up i with
    | OcidResp.malformed => ([], [d])
    | OcidResp.tooBig =>
      let next := fetchBoxGo up radioTech minD fuel (i + 1) (max minD (d / 2))
      (next.1, d :: next.2)
    | OcidResp.cellsField items => (tagCells radioTech items, [d])
    | OcidResp.arrayBody items => (tagCells radioTech items, [d])
    | OcidResp.otherJson => ([], [d])

/-- Function `fetchOpenCellIdBox`: up to 6 attempts, halving the half-width on a
"bbox too big" error with floor `0.004`, treating unparseable bodies as `[]`. -/
def fetchOpenCellIdBox (up : ℕ → OcidResp) (radioTech : String) (dStart : ℚ) :
    List CellT × List ℚ :=
  fetchBoxGo up radioTech ((4 : ℚ) / 1000) 6 0 dStart

/-- The dedup key of `ocidFanoutLTE`:
`${c.mcc}-${String(c.mnc).padStart(3,"0")}-${c.cid ?? c.cellid ?? ""}-LTE`
(the radio tag of the record stands at the end). -/
def cellKey (c : CellT) : String :=
  Nat.repr c.mcc ++ "-" ++ padStart3 (Nat.repr c.mnc) ++ "-" ++
    ((c.cid).getD ((c.cellid).getD "")) ++ "-" ++ c.radioTech

/-- The running fan-out state: the `seen` key set, the accumulated `all`
list, and the number of upstream calls issued. -/
structure FanSt where
  seen : List String
  all : List CellT
  calls : ℕ
deriving DecidableEq

/-- The body of the dedup loop: `if (!seen.has(id)) { seen.add(id); all.push(c) }`. -/
def dedupStep (st : List String × List CellT) (c : CellT) : List String × List CellT :=
  let id := cellKey c
  if id ∈ st.1 then st else (id :: st.1, st.2 ++ [c])

/-- Deduplicate one batch of cells into the running state. -/
def processCells (st : List String × List CellT) (cells : List CellT) :
    List String × List CellT :=
  cells.foldl dedupStep st

/-- An auxiliary integer range `lo, lo+1, ..., lo+n-1`. -/
def zrange (lo : ℤ) (n : ℕ) : List ℤ :=
  (List.range n).map (fun i => lo + i)

/-- The `(dy, dx)` offsets of ring `r` (`r ≥ 1`): top and bottom rows for
`x = -r..r`, then left and right columns for `y = -r+1..r-1`, in source order. -/
def offsetsOfRing (boxD : ℚ) (r : ℕ) : List (ℚ × ℚ) :=
  ((zrange (-(r : ℤ)) (2 * r + 1)).flatMap (fun x =>
    [((-(r : ℤ) : ℚ) * boxD, (x : ℚ) * boxD), (((r : ℤ) : ℚ) * boxD, (x : ℚ) * boxD)])) ++
  ((zrange (-(r : ℤ) + 1) (2 * r - 1)).flatMap (fun y =>
    [(((y : ℤ) : ℚ) * boxD, (-(r : ℤ) : ℚ) * boxD), (((y : ℤ) : ℚ) * boxD, ((r : ℤ) : ℚ) * boxD)]))

/-- The inner offset loop of `ocidFanoutLTE`: before each box, break when the
call ceiling is reached; issue the adaptive box query (the upstream behaviour
of box number `k` is `up2 k`); dedup; break once the results threshold is hit. -/
def fanInner (up2 : ℕ → ℕ → OcidResp) (cap thr : ℕ) :
    List (ℚ × ℚ) → FanSt → FanSt
  | [], st => st
  | _o :: rest, st =>
    if st.calls ≥ cap then st
    else
      let cells := (fetchOpenCellIdBox (up2 st.calls) "LTE" ((8 : ℚ) / 1000)).1
      let p := processCells (st.seen, st.all) cells
      let st2 : FanSt := ⟨p.1, p.2, st.calls + 1⟩
      if st2.all.length ≥ thr then st2
      else fanInner up2 cap thr rest st2

/-- The ring loop of `ocidFanoutLTE`. Also counts how many ring bodies were
entered (the "border batches" actually issued). -/
def fanRings (up2 : ℕ → ℕ → OcidResp) (cap thr : ℕ) (boxD : ℚ) :
    List ℕ → FanSt → FanSt × ℕ
  | [], st => (st, 0)
  | r :: rest, st =>
    let st2 := fanInner up2 cap thr (offsetsOfRing boxD r) st
    if st2.calls ≥ cap ∨ st2.all.length ≥ thr then (st2, 1)
    else
      let q := fanRings up2 cap thr boxD rest st2
      (q.1, q.2 + 1)

/-- The body of `ocidFanoutLTE` after the API-key check: the center box
(thresholds 80 calls / 60 results), then rings 1..6 (thresholds 80 / 80).
Returns the final state and the number of ring batches entered. -/
def fanCore (up2 : ℕ → ℕ → OcidResp) : FanSt × ℕ :=
  let cells := (fetchOpenCellIdBox (up2 0) "LTE" ((8 : ℚ) / 1000)).1
  let p := processCells ([], []) cells
  let st1 : FanSt := ⟨p.1, p.2, 1⟩
  if st1.calls ≥ 80 ∨ st1.all.length ≥ 60 then (st1, 0)
  else fanRings up2 80 80 ((8 : ℚ) / 1000) [1, 2, 3, 4, 5, 6] st1

/-- Function `ocidFanoutLTE`: fails only when the API key is missing or empty. -/
def ocidFanoutLTE (keyOpt : Option String) (up2 : ℕ → ℕ → OcidResp) :
    Except String (FanSt × ℕ) :=
  if jsTruthy keyOpt then Except.ok (fanCore up2)
  else Except.error "Server missing OPENCELLID_API_KEY"

/-- Function `operatorFromMccMnc`: look up `String(mcc) + String(mnc).padStart(3,"0")`
in the MCC+MNC→operator map. -/
def operatorFromMccMnc (m : String → Option String) (mcc mnc : ℕ) : Option String :=
  m (Nat.repr mcc ++ padStart3 (Nat.repr mnc))

/-- Function `labelOperator`: the mapped operator, or (by JS `||`, also when the map
holds an empty string) the placeholder `MCC<mcc>-MNC<padded mnc>`. -/
def labelOperator (m : String → Option String) (mcc mnc : ℕ) : String :=
  match operatorFromMccMnc m mcc mnc with
  | some v =>
    if v = "" then "MCC" ++ Nat.repr mcc ++ "-MNC" ++ padStart3 (Nat.repr mnc) else v
  | none => "MCC" ++ Nat.repr mcc ++ "-MNC" ++ padStart3 (Nat.repr mnc)

/-- The deduplicated list of resolved LTE operator names a given OpenCelliD
behaviour leads to (the handler's `lteOperators`). -/
def lteOpsOf (up2 : ℕ → ℕ → OcidResp) (m : String → Option String) : List String :=
  jsSetList ((fanCore up2).1.all.map (fun c => labelOperator m c.mcc c.mnc))

/-- One item of an FCC providers payload; every field may be missing. The
source probes `providerName`, `name`, `ProviderName` (`provName` here),
`provider` for the name and `technology`, `tech`, `serviceType`, `radio`
(`radioT` here) for the technology. -/
structure FccItem where
  providerName : Option String
  name : Option String
  provName : Option String
  provider : Option String
  technology : Option String
  tech : Option String
  serviceType : Option String
  radioT : Option String
deriving DecidableEq

/-- A normalized FCC provider entry `{name, radio?}`. -/
structure FccProv where
  name : String
  radioT : Option String
deriving DecidableEq

/-- An FCC response body after `body.json()`, by behavioural class. -/
inductive FccBody
  | unparseable
  | jnull
  | arrayBody (items : List FccItem)
  | objResults (items : List FccItem)
  | objProviders (items : List FccItem)
  | otherJson
deriving DecidableEq

/-- The FCC upstream outcome: a transport error (the `catch` path), or an
HTTP status with a body. -/
inductive FccUp
  | transportError
  | httpStatus (code : ℕ) (body : FccBody)
deriving DecidableEq

/-- The JS chain `a || b || ...` over optional strings: the first present, non-empty one. -/
def firstTruthyStr : List (Option String) → Option String
  | [] => none
  | o :: rest =>
    match o with
    | some s => if s = "" then firstTruthyStr rest else some s
    | none => firstTruthyStr rest

/-- The per-item normalization of `fccProvidersNear`. -/
def normFccItem (p : FccItem) : FccProv :=
  let nm := (firstTruthyStr [p.providerName, p.name, p.provName, p.provider]).getD
    "Unknown Provider"
  let tc := (firstTruthyStr [p.technology, p.tech, p.serviceType, p.radioT]).getD ""
  ⟨jsTrim nm, if jsTrim tc = "" then none else some (jsTrim tc)⟩

/-- Function `fccProvidersNear`: total over every upstream behaviour; every failure
class degrades to the empty list. -/
def fccProvidersNear (u : FccUp) : List FccProv :=
  match u with
  | FccUp.transportError => []
  | FccUp.httpStatus code body =>
    if code ≥ 400 then []
    else
      match body with
      | FccBody.unparseable => []
      | FccBody.jnull => []
      | FccBody.arrayBody items => items.map normFccItem
      | FccBody.objResults items => items.map normFccItem
      | FccBody.objProviders items => items.map normFccItem
      | FccBody.otherJson => []

/-- Function `geocodeZipOrLatLon`. Parameter `parseFin` models `parseFloat` composed with the
`Number.isFinite` test (`none` when the text does not parse to a finite
number); `zipGeo` is the outcome of the external ZIP lookup. The boolean
records whether a network request was issued. -/
def geocodeZipOrLatLon (q : Query) (parseFin : String → Option ℚ)
    (zipGeo : Except String Geo) : Except String Geo × Bool :=
  if jsTruthy q.lat && jsTruthy q.lon then
    match parseFin (q.lat.getD "") with
    | none => (Except.error "Invalid lat/lon.", false)
    | some la =>
      match parseFin (q.lon.getD "") with
      | none => (Except.error "Invalid lat/lon.", false)
      | some lo => (Except.ok ⟨la, lo, "custom point"⟩, false)
  else
    let zip := jsTrim (q.zip.getD "")
    if zipValid zip then (zipGeo, true)
    else (Except.error "Please provide a valid US ZIP (5 digits) or lat/lon.", false)

/-- The secondary-tier explanation string of the handler. -/
def secondaryMsg (place : String) (ops : List String) : String :=
  "No FloLive EU2/US2 networks near " ++ place ++
    ", but LTE towers were detected for: " ++ String.intercalate ", " ops ++ "."

/-- The tertiary explanation built from FCC provider names. -/
def tertiaryFccMsg (place : String) (names : List String) : String :=
  "No LTE towers found via OpenCelliD near " ++ place ++
    ". FCC lists providers here: " ++ String.intercalate ", " names ++ "."

/-- The tertiary explanation when the FCC lookup also returned nothing. -/
def tertiaryNoneMsg (place : String) : String :=
  "No LTE towers found via OpenCelliD near " ++ place ++
    ", and FCC provider lookup returned none. Crowd data or FCC listing may be sparse here."

/-- Which branch of the classifier produced the 200 response. -/
inductive Tier
  | primaryConnect
  | secondaryDetected
  | tertiaryFcc
  | tertiaryNone
deriving DecidableEq

/-- The JSON body of the 200 response of the handler. -/
structure OkBody where
  connects : Bool
  networks : List String
  reason : Option String
  presentOperators : List String
  detected : List (String × String)
  fccProviders : List FccProv
  cellsCount : ℕ
  place : String
deriving DecidableEq

/-- A response body: an `{error}` object or the 200 payload. -/
inductive RespBody
  | err (msg : String)
  | ok (b : OkBody)
deriving DecidableEq

/-- The handler's outcome: HTTP status and body, plus observers of the side
effects the specification talks about — whether the ZIP geocoder was called,
how many OpenCelliD box queries were issued, whether the FCC fallback was
called, and which classifier branch answered. -/
structure HttpResult where
  status : ℕ
  body : RespBody
  geocodeNet : Bool
  ocidCalls : ℕ
  fccCalled : Bool
  tier : Option Tier
deriving DecidableEq

/-- The API `handler` of `pages/api/coverage.js`. Every upstream service is a
parameter: `parseFin` the float parse, `zipGeo` the geocoder outcome,
`keyOpt` the `OPENCELLID_API_KEY`, `up2 k` the OpenCelliD responses of box
call `k`, `fccUp` the FCC upstream, `mapOp` the MCC+MNC map and `allowed` the
EU2/US2 allowlist. Thrown errors become the 502 branch, as in the source. -/
def handler (q : Query) (parseFin : String → Option ℚ) (zipGeo : Except String Geo)
    (keyOpt : Option String) (up2 : ℕ → ℕ → OcidResp) (fccUp : FccUp)
    (mapOp : String → Option String) (allowed : List String) : HttpResult :=
  match geocodeZipOrLatLon q parseFin zipGeo with
  | (Except.error msg, g) => ⟨502, RespBody.err msg, g, 0, false, none⟩
  | (Except.ok geo, g) =>
    match ocidFanoutLTE keyOpt up2 with
    | Except.error msg => ⟨502, RespBody.err msg, g, 0, false, none⟩
    | Except.ok fanPair =>
      let fan := fanPair.1
      let lteCells := fan.all
      let lteOperators := jsSetList (lteCells.map (fun c => labelOperator mapOp c.mcc c.mnc))
      let networks := lteOperators.filter (fun op => allowed.contains op)
      let connects := !networks.isEmpty
      let detected := lteOperators.map (fun op => ("LTE", op))
      if connects then
        ⟨200, RespBody.ok ⟨connects, networks, none, lteOperators, detected, [],
          lteCells.length, geo.place⟩, g, fan.calls, false, some Tier.primaryConnect⟩
      else
        let fccProviders := fccProvidersNear fccUp
        if !lteOperators.isEmpty then
          ⟨200, RespBody.ok ⟨connects, networks, some (secondaryMsg geo.place lteOperators),
            lteOperators, detected, fccProviders, lteCells.length, geo.place⟩,
            g, fan.calls, true, some Tier.secondaryDetected⟩
        else if !fccProviders.isEmpty then
          let names := sortStr (jsSetList (fccProviders.map (fun pr => pr.name)))
          ⟨200, RespBody.ok ⟨connects, networks, some (tertiaryFccMsg geo.place names),
            names, detected, fccProviders, lteCells.length, geo.place⟩,
            g, fan.calls, true, some Tier.tertiaryFcc⟩
        else
          ⟨200, RespBody.ok ⟨connects, networks, some (tertiaryNoneMsg geo.place),
            [], detected, fccProviders, lteCells.length, geo.place⟩,
            g, fan.calls, true, some Tier.tertiaryNone⟩

/-! ## Concrete inputs used by particular claims -/

/-- A fixed valid request: `zip=90210`. -/
def q0 : Query := ⟨some "90210", none, none⟩

/-- A float parse that accepts nothing (no request below uses the lat/lon
path with it). -/
def pf0 : String → Option ℚ := fun _ => none

/-- A fixed resolved point. -/
def geo0 : Geo := ⟨0, 0, "P"⟩

/-- An FCC upstream that fails at the transport level. -/
def fccNone : FccUp := FccUp.transportError

/-- A raw cell of network 310/410. -/
def rcA : RawCell := ⟨some 310, some 410, some "1", none⟩

/-- A raw cell of network 310/260. -/
def rcB : RawCell := ⟨some 310, some 260, some "2", none⟩

/-- A raw cell of network 310/120 (not in the concrete operator map). -/
def rcX : RawCell := ⟨some 310, some 120, some "3", none⟩

/-- A concrete MCC+MNC→operator map: 310410 ↦ OpA, 310260 ↦ OpB. -/
def m0 : String → Option String :=
  fun k => if k = "310410" then some "OpA" else if k = "310260" then some "OpB" else none

/-- An OpenCelliD behaviour detecting OpA then OpB in the center box. -/
def upAB : ℕ → ℕ → OcidResp :=
  fun k _ => if k = 0 then OcidResp.cellsField [some rcA, some rcB] else OcidResp.cellsField []

/-- The same detections in the opposite order. -/
def upBA : ℕ → ℕ → OcidResp :=
  fun k _ => if k = 0 then OcidResp.cellsField [some rcB, some rcA] else OcidResp.cellsField []

/-- An OpenCelliD behaviour detecting only the unmapped network 310/120. -/
def upX : ℕ → ℕ → OcidResp :=
  fun k _ => if k = 0 then OcidResp.cellsField [some rcX] else OcidResp.cellsField []

/-- An OpenCelliD behaviour with zero results everywhere. -/
def upZero : ℕ → ℕ → OcidResp := fun _ _ => OcidResp.cellsField []

/-- An OpenCelliD behaviour whose every response body is unparseable. -/
def upMal : ℕ → ℕ → OcidResp := fun _ _ => OcidResp.malformed

/-- An upstream for one box: "bbox too big" on the first two attempts, a
valid payload on the third. -/
def up4 : ℕ → OcidResp :=
  fun i => if i < 2 then OcidResp.tooBig else OcidResp.cellsField [some rcA]

/-- Prefix an upstream response sequence with one fixed response. -/
def consResp (r : OcidResp) (f : ℕ → OcidResp) : ℕ → OcidResp :=
  fun i => match i with
  | 0 => r
  | j + 1 => f j

/-! ## Helper lemmas -/

/-- The classifier part of `handler` (everything after a successful geocode
with a network hit and a present API key); `handler q0 pf (.ok geo) (some "k")
...` is definitionally equal to it. -/
def classifyAt (up2 : ℕ → ℕ → OcidResp) (fccUp : FccUp) (mapOp : String → Option String)
    (allowed : List String) (geo : Geo) : HttpResult :=
  let fan := (fanCore up2).1
  let lteCells := fan.all
  let lteOperators := jsSetList (lteCells.map (fun c => labelOperator mapOp c.mcc c.mnc))
  let networks := lteOperators.filter (fun op => allowed.contains op)
  let connects := !networks.isEmpty
  let detected := lteOperators.map (fun op => ("LTE", op))
  if connects then
    ⟨200, RespBody.ok ⟨connects, networks, none, lteOperators, detected, [],
      lteCells.length, geo.place⟩, true, fan.calls, false, some Tier.primaryConnect⟩
  else
    let fccProviders := fccProvidersNear fccUp
    if !lteOperators.isEmpty then
      ⟨200, RespBody.ok ⟨connects, networks, some (secondaryMsg geo.place lteOperators),
        lteOperators, detected, fccProviders, lteCells.length, geo.place⟩,
        true, fan.calls, true, some Tier.secondaryDetected⟩
    else if !fccProviders.isEmpty then
      let names := sortStr (jsSetList (fccProviders.map (fun pr => pr.name)))
      ⟨200, RespBody.ok ⟨connects, networks, some (tertiaryFccMsg geo.place names),
        names, detected, fccProviders, lteCells.length, geo.place⟩,
        true, fan.calls, true, some Tier.tertiaryFcc⟩
    else
      ⟨200, RespBody.ok ⟨connects, networks, some (tertiaryNoneMsg geo.place),
        [], detected, fccProviders, lteCells.length, geo.place⟩,
        true, fan.calls, true, some Tier.tertiaryNone⟩

theorem handler_q0_classify (pf : String → Option ℚ) (geo : Geo)
    (up2 : ℕ → ℕ → OcidResp) (fccUp : FccUp) (m : String → Option String)
    (al : List String) :
    handler q0 pf (Except.ok geo) (some "k") up2 fccUp m al =
      classifyAt up2 fccUp m al geo := rfl

theorem fetchBoxGo_len (up : ℕ → OcidResp) (rT : String) (minD : ℚ) :
    ∀ fuel i d, ((fetchBoxGo up rT minD fuel i d).2).length ≤ fuel := by
  intro fuel
  induction fuel with
  | zero => intro i d; simp [fetchBoxGo]
  | succ n ih =>
    intro i d
    cases hu : up i with
    | malformed => simp [fetchBoxGo, hu]
    | tooBig =>
      have h2 := ih (i + 1) (max minD (d / 2))
      simp only [fetchBoxGo, hu, List.length_cons]
      omega
    | cellsField items => simp [fetchBoxGo, hu]
    | arrayBody items => simp [fetchBoxGo, hu]
    | otherJson => simp [fetchBoxGo, hu]

theorem fetchBoxGo_head (up : ℕ → OcidResp) (rT : String) (minD : ℚ)
    (n i : ℕ) (d : ℚ) : ((fetchBoxGo up rT minD (n + 1) i d).2).head? = some d := by
  cases hu : up i <;> simp [fetchBoxGo, hu]

theorem fetchBoxGo_chain (up : ℕ → OcidResp) (rT : String) (minD : ℚ) :
    ∀ fuel i d, List.Chain' (fun a b => b = max minD (a / 2))
      (fetchBoxGo up rT minD fuel i d).2 := by
  intro fuel
  induction fuel with
  | zero => intro i d; simp [fetchBoxGo]
  | succ n ih =>
    intro i d
    cases hu : up i with
    | malformed => simp [fetchBoxGo, hu]
    | tooBig =>
      simp only [fetchBoxGo, hu]
      rw [List.chain'_cons']
      refine ⟨?_, ih (i + 1) (max minD (d / 2))⟩
      intro y hy
      cases n with
      | zero => simp [fetchBoxGo] at hy
      | succ m =>
        rw [fetchBoxGo_head] at hy
        simp only [Option.mem_def, Option.some.injEq] at hy
        exact hy.symm
    | cellsField items => simp [fetchBoxGo, hu]
    | arrayBody items => simp [fetchBoxGo, hu]
    | otherJson => simp [fetchBoxGo, hu]

/-! ## Claim theorems -/

/-- Claim C3 (code bug): a request with `zip="abc"`, `zip="123"`, or an
unparseable `lat`, is rejected before any network call (no geocoder, no
OpenCelliD, no FCC request) with an `{error: string}` body — but with HTTP
status 502, not the 400 the specification prescribes for invalid input. -/
theorem claim_C3_code :
    (∀ pf zg k up2 fccUp m al,
      handler ⟨some "abc", none, none⟩ pf zg k up2 fccUp m al =
        ⟨502, RespBody.err "Please provide a valid US ZIP (5 digits) or lat/lon.",
          false, 0, false, none⟩) ∧
    (∀ pf zg k up2 fccUp m al,
      handler ⟨some "123", none, none⟩ pf zg k up2 fccUp m al =
        ⟨502, RespBody.err "Please provide a valid US ZIP (5 digits) or lat/lon.",
          false, 0, false, none⟩) ∧
    (∀ zg k up2 fccUp m al,
      handler ⟨none, some "x", some "y"⟩ pf0 zg k up2 fccUp m al =
        ⟨502, RespBody.err "Invalid lat/lon.", false, 0, false, none⟩) :=
  ⟨fun _ _ _ _ _ _ _ => rfl, fun _ _ _ _ _ _ _ => rfl, fun _ _ _ _ _ _ => rfl⟩

/-- Claim C4: the Adaptive Area Query issues at most 6 attempts; each retry
halves the half-width with floor `0.004`; and when the upstream reports
"bbox too big" on the first two attempts and succeeds on the third, the
result is accepted with the half-width trace `[0.008, 0.004, 0.004]` — the
halving step (with its floor) applied twice before the accepted attempt. -/
theorem claim_C4 :
    (∀ up rT d, ((fetchOpenCellIdBox up rT d).2).length ≤ 6) ∧
    (∀ up rT d, List.Chain' (fun a b => b = max ((4 : ℚ) / 1000) (a / 2))
      (fetchOpenCellIdBox up rT d).2) ∧
    fetchOpenCellIdBox up4 "LTE" ((8 : ℚ) / 1000) =
      ([⟨310, 410, some "1", none, "LTE"⟩],
        [(8 : ℚ) / 1000, (4 : ℚ) / 1000, (4 : ℚ) / 1000]) :=
  ⟨fun up rT d => fetchBoxGo_len up rT ((4 : ℚ) / 1000) 6 0 d,
   fun up rT d => fetchBoxGo_chain up rT ((4 : ℚ) / 1000) 6 0 d,
   by
    have e1 : max ((4 : ℚ) / 1000) (((8 : ℚ) / 1000) / 2) = (4 : ℚ) / 1000 := by norm_num
    have e2 : max ((4 : ℚ) / 1000) (((4 : ℚ) / 1000) / 2) = (4 : ℚ) / 1000 := by norm_num
    simp [fetchOpenCellIdBox, fetchBoxGo, up4, tagCells, rcA, e1, e2]⟩

/-- A raw cell whose dedup key is `310-410-7-LTE`. -/
def rc1 : RawCell := ⟨some 310, some 410, some "7", none⟩

/-- A different raw cell with the same dedup key (`cid` wins over `cellid`). -/
def rc2 : RawCell := ⟨some 310, some 410, some "7", some "9"⟩

/-- Both duplicate records arrive in the same (center) box. -/
def upSame : ℕ → ℕ → OcidResp :=
  fun k _ => if k = 0 then OcidResp.cellsField [some rc1, some rc2] else OcidResp.cellsField []

/-- The duplicate records arrive in two different boxes. -/
def upDiff : ℕ → ℕ → OcidResp :=
  fun k _ =>
    if k = 0 then OcidResp.cellsField [some rc1]
    else if k = 1 then OcidResp.cellsField [some rc2]
    else OcidResp.cellsField []

theorem fanInner_calls_le (up2 : ℕ → ℕ → OcidResp) (cap thr : ℕ) :
    ∀ l st, st.calls ≤ cap → (fanInner up2 cap thr l st).calls ≤ cap := by
  intro l
  induction l with
  | nil => intro st h; exact h
  | cons o rest ih =>
    intro st h
    by_cases hc : st.calls ≥ cap
    · simp only [fanInner, if_pos hc]; exact h
    · simp only [fanInner, if_neg hc]
      split
      · simp only []; omega
      · exact ih _ (by simp only []; omega)

theorem fanRings_calls_le (up2 : ℕ → ℕ → OcidResp) (cap thr : ℕ) (boxD : ℚ) :
    ∀ rs st, st.calls ≤ cap → ((fanRings up2 cap thr boxD rs st).1).calls ≤ cap := by
  intro rs
  induction rs with
  | nil => intro st h; exact h
  | cons r rest ih =>
    intro st h
    have h2 := fanInner_calls_le up2 cap thr (offsetsOfRing boxD r) st h
    simp only [fanRings]
    split
    · exact h2
    · exact ih _ h2

theorem fanCore_calls_le (up2 : ℕ → ℕ → OcidResp) : (fanCore up2).1.calls ≤ 80 := by
  unfold fanCore
  dsimp only
  split
  · show (1 : ℕ) ≤ 80
    omega
  · exact fanRings_calls_le up2 80 80 ((8 : ℚ) / 1000) [1, 2, 3, 4, 5, 6] _
      (show (1 : ℕ) ≤ 80 by omega)

/-- The dedup invariant of the fan-out: keys of the output are pairwise
distinct, and every emitted key is recorded in `seen`. -/
def FanInv (st : List String × List CellT) : Prop :=
  (st.2.map cellKey).Nodup ∧ ∀ c ∈ st.2, cellKey c ∈ st.1

theorem dedupStep_inv (st : List String × List CellT) (c : CellT)
    (h : FanInv st) : FanInv (dedupStep st c) := by
  obtain ⟨h1, h2⟩ := h
  unfold dedupStep
  dsimp only
  split
  · exact ⟨h1, h2⟩
  · rename_i hnot
    constructor
    · rw [List.map_append]
      simp only [List.map_cons, List.map_nil]
      rw [List.nodup_append]
      refine ⟨h1, List.nodup_singleton _, ?_⟩
      intro a ha hb
      simp only [List.mem_singleton] at hb
      subst hb
      rcases List.mem_map.mp ha with ⟨c', hc', hkey⟩
      exact hnot (hkey ▸ h2 c' hc')
    · intro x hx
      rcases List.mem_append.mp hx with hx | hx
      · exact List.mem_cons_of_mem _ (h2 x hx)
      · simp only [List.mem_singleton] at hx
        subst hx
        exact List.mem_cons_self _ _

theorem processCells_inv :
    ∀ (cells : List CellT) (st : List String × List CellT),
      FanInv st → FanInv (processCells st cells) := by
  intro cells
  induction cells with
  | nil => intro st h; exact h
  | cons c rest ih =>
    intro st h
    exact ih (dedupStep st c) (dedupStep_inv st c h)

theorem fanInner_inv (up2 : ℕ → ℕ → OcidResp) (cap thr : ℕ) :
    ∀ l st, FanInv (st.seen, st.all) →
      FanInv ((fanInner up2 cap thr l st).seen, (fanInner up2 cap thr l st).all) := by
  intro l
  induction l with
  | nil => intro st h; exact h
  | cons o rest ih =>
    intro st h
    by_cases hc : st.calls ≥ cap
    · simp only [fanInner, if_pos hc]; exact h
    · simp only [fanInner, if_neg hc]
      split
      · exact processCells_inv _ (st.seen, st.all) h
      · exact ih _ (processCells_inv _ (st.seen, st.all) h)

theorem fanRings_inv (up2 : ℕ → ℕ → OcidResp) (cap thr : ℕ) (boxD : ℚ) :
    ∀ rs st, FanInv (st.seen, st.all) →
      FanInv (((fanRings up2 cap thr boxD rs st).1).seen,
        ((fanRings up2 cap thr boxD rs st).1).all) := by
  intro rs
  induction rs with
  | nil => intro st h; exact h
  | cons r rest ih =>
    intro st h
    have h2 := fanInner_inv up2 cap thr (offsetsOfRing boxD r) st h
    simp only [fanRings]
    split
    · exact h2
    · exact ih _ h2

theorem fanCore_inv (up2 : ℕ → ℕ → OcidResp) :
    FanInv (((fanCore up2).1).seen, ((fanCore up2).1).all) := by
  have h0 : FanInv (([] : List String), ([] : List CellT)) := ⟨List.nodup_nil, by simp⟩
  have h1 := processCells_inv
    ((fetchOpenCellIdBox (up2 0) "LTE" ((8 : ℚ) / 1000)).1) ([], []) h0
  unfold fanCore
  dsimp only
  split
  · exact h1
  · exact fanRings_inv up2 80 80 ((8 : ℚ) / 1000) [1, 2, 3, 4, 5, 6] _ h1

/-- Claim C5 counterexample: with an upstream returning zero results from
every Adaptive Area Query, the sampler issues 5 center-or-border batches
(center plus rings 1–4, the last cut short by the request ceiling), not the
`ringCount+1 = 7` the claim states. -/
theorem claim_C5_cex :
    1 + (fanCore upZero).2 = 5 ∧ ¬(1 + (fanCore upZero).2 = 6 + 1) := by decide

/-- A batch of `n` raw cells with pairwise-distinct dedup keys (network
codes `lo`, `lo+1`, ...). -/
def mkCells (lo n : ℕ) : List (Option RawCell) :=
  (List.range n).map (fun j => some ⟨some 310, some (lo + j), some "c", none⟩)

/-- An upstream whose center box already yields 60 distinct records (the
center results threshold). -/
def upBig60 : ℕ → ℕ → OcidResp :=
  fun k _ => if k = 0 then OcidResp.cellsField (mkCells 0 60) else OcidResp.cellsField []

/-- An upstream reaching the ring-phase results threshold (80) at the first
ring box: 59 distinct center records plus 21 fresh ones in box 1. -/
def upRing80 : ℕ → ℕ → OcidResp :=
  fun k _ =>
    if k = 0 then OcidResp.cellsField (mkCells 0 59)
    else if k = 1 then OcidResp.cellsField (mkCells 100 21)
    else OcidResp.cellsField []

theorem fanCore_center_thr (up2 : ℕ → ℕ → OcidResp)
    (h : 60 ≤ ((processCells ([], [])
      ((fetchOpenCellIdBox (up2 0) "LTE" ((8 : ℚ) / 1000)).1)).2).length) :
    (fanCore up2).1.calls = 1 ∧ (fanCore up2).2 = 0 := by
  unfold fanCore
  dsimp only
  split
  · exact ⟨rfl, rfl⟩
  · rename_i hcond
    exact absurd (Or.inr h) hcond

set_option maxRecDepth 4000 in
/-- Claim C5 (amended): the number of box queries never exceeds the hard
ceiling 80; with an all-empty upstream the run stops at exactly 80 calls,
having entered only ring batches 1–4 after the center, with no results; and
the results-count thresholds stop the run early: any upstream whose
deduplicated center batch holds at least 60 records ends after exactly one
call with no ring batch, a concrete 60-record center batch stops at 1 call
holding 60 records, and a run that reaches 80 records at the first ring box
stops at 2 calls holding 80 records — far below the ceiling in each case. -/
theorem claim_C5_amended :
    (∀ up2, (fanCore up2).1.calls ≤ 80) ∧
    ((fanCore upZero).1.calls = 80 ∧ (fanCore upZero).2 = 4 ∧
      (fanCore upZero).1.all = []) ∧
    (∀ up2, 60 ≤ ((processCells ([], [])
        ((fetchOpenCellIdBox (up2 0) "LTE" ((8 : ℚ) / 1000)).1)).2).length →
      (fanCore up2).1.calls = 1 ∧ (fanCore up2).2 = 0) ∧
    ((fanCore upBig60).1.calls = 1 ∧ (fanCore upBig60).2 = 0 ∧
      (fanCore upBig60).1.all.length = 60) ∧
    ((fanCore upRing80).1.calls = 2 ∧ (fanCore upRing80).2 = 1 ∧
      (fanCore upRing80).1.all.length = 80) :=
  ⟨fanCore_calls_le, by decide, fanCore_center_thr, by decide, by decide⟩

/-- Claim C6: the sampler's output never repeats a dedup key
(countryCode, padded networkCode, cellIdentifier-or-empty, radio), and two
records with an identical key — arriving in the same box or in different
boxes — produce exactly one output entry. -/
theorem claim_C6 :
    (∀ up2, (((fanCore up2).1.all).map cellKey).Nodup) ∧
    (fanCore upSame).1.all = [⟨310, 410, some "7", none, "LTE"⟩] ∧
    (fanCore upDiff).1.all = [⟨310, 410, some "7", none, "LTE"⟩] :=
  ⟨fun up2 => (fanCore_inv up2).1, by decide, by decide⟩

theorem fanCore_upMal : fanCore upMal = (⟨[], [], 80⟩, 4) := by decide

/-- Claim C7: an unparseable Adaptive Area Query response body yields the
empty result list (whether it arrives on the first attempt or after any
prefix of "bbox too big" retries), and a request whose every box payload is
malformed still completes with HTTP 200 after all 80 box queries — a
malformed per-box payload never fails the whole request. -/
theorem claim_C7 :
    (∀ f rT d, fetchOpenCellIdBox (consResp OcidResp.malformed f) rT d = ([], [d])) ∧
    (∀ (k : Fin 6) (rT : String) (d : ℚ),
      (fetchOpenCellIdBox (fun i => if i < k.val then OcidResp.tooBig else OcidResp.malformed)
        rT d).1 = []) ∧
    (∀ pf geo fccUp m al,
      (handler q0 pf (Except.ok geo) (some "k") upMal fccUp m al).status = 200 ∧
      (handler q0 pf (Except.ok geo) (some "k") upMal fccUp m al).ocidCalls = 80) := by
  refine ⟨fun f rT d => rfl, ?_, ?_⟩
  · intro k rT d
    fin_cases k <;> rfl
  · intro pf geo fccUp m al
    rw [handler_q0_classify]
    unfold classifyAt
    rw [fanCore_upMal]
    dsimp only
    split
    · exact ⟨rfl, rfl⟩
    · split
      · exact ⟨rfl, rfl⟩
      · split
        · exact ⟨rfl, rfl⟩
        · exact ⟨rfl, rfl⟩

/-- Claim C8: for an operator map whose entries are operator names (non-empty
strings), resolution is total and never drops an unknown network — it returns
the mapped operator when the MCC+padded-MNC key is present, the synthesized
`MCC<mcc>-MNC<padded mnc>` placeholder when it is not, and a non-empty string
in every case. -/
theorem claim_C8 (m : String → Option String) (mcc mnc : ℕ)
    (hm : ∀ k v, m k = some v → v ≠ "") :
    labelOperator m mcc mnc ≠ "" ∧
    (∀ v, operatorFromMccMnc m mcc mnc = some v → labelOperator m mcc mnc = v) ∧
    (operatorFromMccMnc m mcc mnc = none →
      labelOperator m mcc mnc =
        "MCC" ++ Nat.repr mcc ++ "-MNC" ++ padStart3 (Nat.repr mnc)) := by
  have hph : ("MCC" ++ Nat.repr mcc ++ "-MNC" ++ padStart3 (Nat.repr mnc)) ≠ "" := by
    intro he
    have hlen := congrArg String.length he
    simp only [String.length_append] at hlen
    have h3 : ("MCC" : String).length = 3 := rfl
    have h0 : ("" : String).length = 0 := rfl
    omega
  unfold labelOperator
  cases hv : operatorFromMccMnc m mcc mnc with
  | none =>
    dsimp only
    exact ⟨hph, fun v hveq => by simp at hveq, fun _ => rfl⟩
  | some v =>
    have hvne : v ≠ "" := hm _ v hv
    dsimp only
    rw [if_neg hvne]
    exact ⟨hvne, fun v' hv' => (Option.some.injEq _ _).mp hv',
      fun hnone => by simp at hnone⟩

/-- Claim C8 witness: at the empty map and network 310/7, resolution yields
the non-empty placeholder `MCC310-MNC007`. -/
theorem claim_C8_w :
    labelOperator (fun _ => none) 310 7 ≠ "" ∧
    labelOperator (fun _ => none) 310 7 = "MCC310-MNC007" := by
  have h := claim_C8 (fun _ => none) 310 7 (fun k v hv => by simp at hv)
  exact ⟨h.1, (h.2.2 rfl).trans (by decide)⟩

/-- Claim C10: the FCC provider fallback is total over upstream behaviour —
transport errors, HTTP statuses of 400 and above, unparseable bodies, null
bodies and unrecognized shapes each yield the empty provider list — and for
a well-formed request no FCC upstream behaviour can keep the handler from
answering 200. -/
theorem claim_C10 :
    fccProvidersNear FccUp.transportError = [] ∧
    (∀ c b, 400 ≤ c → fccProvidersNear (FccUp.httpStatus c b) = []) ∧
    (∀ c, fccProvidersNear (FccUp.httpStatus c FccBody.unparseable) = []) ∧
    (∀ c, fccProvidersNear (FccUp.httpStatus c FccBody.jnull) = []) ∧
    (∀ c, fccProvidersNear (FccUp.httpStatus c FccBody.otherJson) = []) ∧
    (∀ pf geo up2 fccUp m al,
      (handler q0 pf (Except.ok geo) (some "k") up2 fccUp m al).status = 200) := by
  refine ⟨rfl, ?_, ?_, ?_, ?_, ?_⟩
  · intro c b h
    simp only [fccProvidersNear]
    rw [if_pos h]
  · intro c
    simp only [fccProvidersNear, ite_self]
  · intro c
    simp only [fccProvidersNear, ite_self]
  · intro c
    simp only [fccProvidersNear, ite_self]
  · intro pf geo up2 fccUp m al
    rw [handler_q0_classify]
    unfold classifyAt
    dsimp only
    split
    · rfl
    · split
      · rfl
      · split
        · rfl
        · rfl

/-- Claim C10 witness: a 404 with a syntactically well-formed provider array
still yields the empty list. -/
theorem claim_C10_w :
    400 ≤ 404 ∧ fccProvidersNear (FccUp.httpStatus 404 FccBody.otherJson) = [] :=
  ⟨by omega, (claim_C10.2.1) 404 FccBody.otherJson (by omega)⟩

theorem bnot_isEmpty_iff (l : List String) : (!l.isEmpty) = true ↔ l ≠ [] := by
  cases l <;> simp

theorem eq_nil_of_not_bnot (l : List String) (h : ¬((!l.isEmpty) = true)) : l = [] := by
  cases l <;> simp_all

/-- What every 200 body of `handler` satisfies: `connects` and `networks`
come from filtering the resolved LTE operators by the allowlist, and
`presentOperators` is the LTE operator list whenever it is non-empty. -/
theorem handler_body_spec (q : Query) (pf : String → Option ℚ)
    (zg : Except String Geo) (k : Option String) (up2 : ℕ → ℕ → OcidResp)
    (fccUp : FccUp) (m : String → Option String) (al : List String) (b : OkBody)
    (h : (handler q pf zg k up2 fccUp m al).body = RespBody.ok b) :
    b.connects = !((lteOpsOf up2 m).filter (fun op => al.contains op)).isEmpty ∧
    b.networks = (lteOpsOf up2 m).filter (fun op => al.contains op) ∧
    (lteOpsOf up2 m ≠ [] → b.presentOperators = lteOpsOf up2 m) := by
  unfold handler at h
  split at h
  · simp at h
  · rename_i geo g
    split at h
    · simp at h
    · rename_i fanPair heq
      have hfp : fanPair = fanCore up2 := by
        unfold ocidFanoutLTE at heq
        split at heq
        · exact ((Except.ok.injEq _ _).mp heq).symm
        · simp at heq
      subst hfp
      unfold lteOpsOf
      dsimp only at h
      split at h
      · rename_i hc
        simp only [RespBody.ok.injEq] at h
        subst h
        exact ⟨rfl, rfl, fun _ => rfl⟩
      · rename_i hc
        split at h
        · simp only [RespBody.ok.injEq] at h
          subst h
          exact ⟨rfl, rfl, fun _ => rfl⟩
        · rename_i hops
          have hnil : jsSetList ((fanCore up2).1.all.map
              (fun c => labelOperator m c.mcc c.mnc)) = [] :=
            eq_nil_of_not_bnot _ hops
          split at h
          · simp only [RespBody.ok.injEq] at h
            subst h
            exact ⟨rfl, rfl, fun hne => absurd hnil hne⟩
          · simp only [RespBody.ok.injEq] at h
            subst h
            exact ⟨rfl, rfl, fun hne => absurd hnil hne⟩

/-- Claim C9 (implicit invariant): in every 200 response, `connects` is true
exactly when `networks` is non-empty, every name of `networks` is a resolved
LTE operator, and whenever LTE operators were detected, `presentOperators`
is exactly that operator list — for every request and upstream behaviour. -/
theorem claim_C9 (q : Query) (pf : String → Option ℚ) (zg : Except String Geo)
    (k : Option String) (up2 : ℕ → ℕ → OcidResp) (fccUp : FccUp)
    (m : String → Option String) (al : List String) (b : OkBody)
    (h : (handler q pf zg k up2 fccUp m al).body = RespBody.ok b) :
    (b.connects = true ↔ b.networks ≠ []) ∧
    (∀ n ∈ b.networks, n ∈ lteOpsOf up2 m) ∧
    (lteOpsOf up2 m ≠ [] → b.presentOperators = lteOpsOf up2 m) := by
  obtain ⟨h1, h2, h3⟩ := handler_body_spec q pf zg k up2 fccUp m al b h
  refine ⟨?_, ?_, h3⟩
  · rw [h1, h2]
    exact bnot_isEmpty_iff _
  · intro n hn
    rw [h2] at hn
    exact (List.mem_filter.mp hn).1

/-- The evaluated 200 body of the request of `upAB` (OpA detected first). -/
def bodyAB : OkBody :=
  ⟨true, ["OpA"], none, ["OpA", "OpB"], [("LTE", "OpA"), ("LTE", "OpB")], [], 2, "P"⟩

/-- The evaluated 200 body of the request of `upBA` (OpB detected first). -/
def bodyBA : OkBody :=
  ⟨true, ["OpA"], none, ["OpB", "OpA"], [("LTE", "OpB"), ("LTE", "OpA")], [], 2, "P"⟩

/-- Claim C9 witness: the invariant at a concrete request that detects
operators OpA and OpB with only OpA allowed. -/
theorem claim_C9_w :
    (bodyAB.connects = true ↔ bodyAB.networks ≠ []) ∧
    (∀ n ∈ bodyAB.networks, n ∈ lteOpsOf upAB m0) ∧
    (lteOpsOf upAB m0 ≠ [] → bodyAB.presentOperators = lteOpsOf upAB m0) :=
  claim_C9 q0 pf0 (Except.ok geo0) (some "k") upAB fccNone m0 ["OpA"] bodyAB (by decide)

/-- Claim C1: in every 200 response the verdict is CONNECTS exactly when
some resolved LTE operator is in the allowlist, and `networks` equals the
intersection (the allowlist-filtered LTE operator list, in detection
order). -/
theorem claim_C1 (q : Query) (pf : String → Option ℚ) (zg : Except String Geo)
    (k : Option String) (up2 : ℕ → ℕ → OcidResp) (fccUp : FccUp)
    (m : String → Option String) (al : List String) (b : OkBody)
    (h : (handler q pf zg k up2 fccUp m al).body = RespBody.ok b) :
    (b.connects = true ↔ ∃ op ∈ lteOpsOf up2 m, al.contains op = true) ∧
    b.networks = (lteOpsOf up2 m).filter (fun op => al.contains op) := by
  obtain ⟨h1, h2, _⟩ := handler_body_spec q pf zg k up2 fccUp m al b h
  refine ⟨?_, h2⟩
  rw [h1]
  rw [bnot_isEmpty_iff]
  constructor
  · intro hne
    rcases List.exists_mem_of_ne_nil _ hne with ⟨op, hop⟩
    rcases List.mem_filter.mp hop with ⟨hmem, hpred⟩
    exact ⟨op, hmem, hpred⟩
  · rintro ⟨op, hmem, hpred⟩
    intro hnil
    have : op ∈ (lteOpsOf up2 m).filter (fun op => al.contains op) :=
      List.mem_filter.mpr ⟨hmem, hpred⟩
    rw [hnil] at this
    simp at this

/-- Claim C1 witness: detections {OpA, OpB} with only OpA allowed give
CONNECTS with `networks = [OpA]`, in both detection orders. -/
theorem claim_C1_w :
    ((bodyAB.connects = true ↔ ∃ op ∈ lteOpsOf upAB m0,
        (["OpA"] : List String).contains op = true) ∧
      bodyAB.networks = (lteOpsOf upAB m0).filter
        (fun op => (["OpA"] : List String).contains op)) ∧
    ((bodyBA.connects = true ↔ ∃ op ∈ lteOpsOf upBA m0,
        (["OpA"] : List String).contains op = true) ∧
      bodyBA.networks = (lteOpsOf upBA m0).filter
        (fun op => (["OpA"] : List String).contains op)) :=
  ⟨claim_C1 q0 pf0 (Except.ok geo0) (some "k") upAB fccNone m0 ["OpA"] bodyAB (by decide),
   claim_C1 q0 pf0 (Except.ok geo0) (some "k") upBA fccNone m0 ["OpA"] bodyBA (by decide)⟩

/-- Claim C2 counterexample: a request whose primary tier detects an LTE
operator (network 310/120, not allowed) still invokes the FCC provider
fallback lookup — the tertiary broader lookup is entered even though the
primary tier found LTE records, contradicting the claim. -/
theorem claim_C2_cex :
    (fanCore upX).1.all ≠ [] ∧
    (handler q0 pf0 (Except.ok geo0) (some "k") upX fccNone m0 ["OpA"]).fccCalled = true ∧
    (handler q0 pf0 (Except.ok geo0) (some "k") upX fccNone m0 ["OpA"]).tier =
      some Tier.secondaryDetected := by decide

/-- Claim C2 (amended): the secondary verdict is produced exactly when the
primary tier found at least one detected operator but zero allowed matches,
and then carries the explanation naming the detected operators; the FCC
fallback's result shapes the response only when no LTE operator was
detected; but the FCC lookup itself is invoked whenever there are zero
allowed matches, even when LTE operators were detected. -/
theorem claim_C2_amended (pf : String → Option ℚ) (geo : Geo)
    (up2 : ℕ → ℕ → OcidResp) (fccUp : FccUp) (m : String → Option String)
    (al : List String) :
    ((handler q0 pf (Except.ok geo) (some "k") up2 fccUp m al).tier =
        some Tier.secondaryDetected ↔
      ((lteOpsOf up2 m).filter (fun op => al.contains op) = [] ∧ lteOpsOf up2 m ≠ [])) ∧
    ((handler q0 pf (Except.ok geo) (some "k") up2 fccUp m al).fccCalled = true ↔
      (lteOpsOf up2 m).filter (fun op => al.contains op) = []) ∧
    (((handler q0 pf (Except.ok geo) (some "k") up2 fccUp m al).tier = some Tier.tertiaryFcc ∨
      (handler q0 pf (Except.ok geo) (some "k") up2 fccUp m al).tier = some Tier.tertiaryNone) →
      lteOpsOf up2 m = []) ∧
    ((handler q0 pf (Except.ok geo) (some "k") up2 fccUp m al).tier =
        some Tier.secondaryDetected →
      ∃ b, (handler q0 pf (Except.ok geo) (some "k") up2 fccUp m al).body = RespBody.ok b ∧
        b.reason = some (secondaryMsg geo.place (lteOpsOf up2 m))) := by
  rw [handler_q0_classify]
  unfold classifyAt lteOpsOf
  dsimp only
  split
  · rename_i hc
    have hne : (jsSetList ((fanCore up2).1.all.map
        (fun c => labelOperator m c.mcc c.mnc))).filter (fun op => al.contains op) ≠ [] :=
      (bnot_isEmpty_iff _).mp hc
    refine ⟨?_, ?_, ?_, ?_⟩
    · simp only [Option.some.injEq]
      constructor
      · intro hteq; cases hteq
      · rintro ⟨h1, _⟩; exact absurd h1 hne
    · simp only [Bool.false_eq_true, false_iff]
      intro h1; exact hne h1
    · rintro (h | h) <;> simp at h
    · intro h; simp at h
  · rename_i hc
    have hnil : (jsSetList ((fanCore up2).1.all.map (fun c => labelOperator m c.mcc c.mnc))).filter
        (fun op => al.contains op) = [] :=
      eq_nil_of_not_bnot _ hc
    split
    · rename_i hops
      have hopsne : jsSetList ((fanCore up2).1.all.map (fun c => labelOperator m c.mcc c.mnc)) ≠ [] :=
        (bnot_isEmpty_iff _).mp hops
      refine ⟨?_, ?_, ?_, ?_⟩
      · simp only [Option.some.injEq, true_iff, iff_true]
        exact ⟨hnil, hopsne⟩
      · simp only [true_iff]
        exact hnil
      · rintro (h | h) <;> simp at h
      · intro _
        exact ⟨_, rfl, rfl⟩
    · rename_i hops
      have hopsnil : jsSetList ((fanCore up2).1.all.map (fun c => labelOperator m c.mcc c.mnc)) = [] :=
        eq_nil_of_not_bnot _ hops
      split
      · refine ⟨?_, ?_, ?_, ?_⟩
        · simp only [Option.some.injEq]
          constructor
          · intro hteq; cases hteq
          · rintro ⟨_, h2⟩; exact absurd hopsnil h2
        · simp only [true_iff]
          exact hnil
        · intro _; exact hopsnil
        · intro h; simp at h
      · refine ⟨?_, ?_, ?_, ?_⟩
        · simp only [Option.some.injEq]
          constructor
          · intro hteq; cases hteq
          · rintro ⟨_, h2⟩; exact absurd hopsnil h2
        · simp only [true_iff]
          exact hnil
        · intro _; exact hopsnil
        · intro h; simp at h
